import Mathlib

/-!
Verification of the boutdata `collect` module (src/boutdata/collect.py).

The Python source is shallowly embedded: Python ints become `Int`, axis
sizes become `Nat`, raised exceptions become `Except PyError`, numpy
buffers become functions `Nat → Nat → Int`, and per-process dump files
become functions from local indices to values.  Each definition carries a
reference to the source lines it translates.
-/

namespace Boutdata

/-- The distinct failure sites of collect.py, one constructor per `raise`
(or per failing runtime operation such as an out-of-bounds list index). -/
inductive PyError where
  | noData          -- "No data available in <name>" (collect.py:89)
  | outOfRange      -- IndexError "<name> index out of range" (collect.py:98)
  | startAfterEnd   -- "<name> start is larger than end" (collect.py:114)
  | badArity        -- "Couldn't convert <name> to slice" (collect.py:122)
  | stepZero        -- ValueError from slice.indices with step 0
  | negDims         -- numpy: negative dimensions are not allowed
  | tooManyDims     -- "ERROR: Too many dimensions" (collect.py:308)
  | incorrectDims   -- "Incorrect dimensions ... applying steps" (collect.py:506)
  | indexError      -- Python list index out of range (collect.py:187/189)
  | inconsistentYIndex  -- "Found FieldPerp ... at different global y-indices" (collect.py:473)
  | inconsistentYProc   -- "Found FieldPerp ... on different y-processor indices" (collect.py:480)
  deriving DecidableEq, Repr

/-- A Python `slice` object: each of start/stop/step may be `None`. -/
structure PySlice where
  start : Option Int
  stop : Option Int
  step : Option Int
  deriving DecidableEq, Repr

/-- The raw per-axis index specification accepted by `collect`
(collect.py:61-125): `None`, a single int, a list of ints, or a slice. -/
inductive RangeSpec where
  | none
  | int (r : Int)
  | list (xs : List Int)
  | slice (start stop step : Option Int)
  deriving DecidableEq, Repr

/-- CPython's clamp of a non-`None` slice bound for a positive step:
negative values wrap by `+N` and are floored at 0, non-negative values are
capped at `N`.  (CPython `PySlice_GetIndicesEx`, positive-step case.) -/
def pyClampPos (v : Int) (N : Nat) : Int :=
  if v < 0 then (if v + N > 0 then v + N else 0)
  else (if v < (N : Int) then v else N)

/-- CPython's clamp of a non-`None` slice bound for a negative step:
the floor is `-1` and the cap is `N - 1`. -/
def pyClampNeg (v : Int) (N : Nat) : Int :=
  if v < 0 then (if v + N > -1 then v + N else -1)
  else (if v < (N : Int) - 1 then v else (N : Int) - 1)

/-- Python's `slice.indices(N)`: resolves `None` components and clamps the
bounds into range, returning concrete `(start, stop, step)`.
Translates CPython's `PySlice_GetIndicesEx`, used at collect.py:125. -/
def sliceIndices (start stop step : Option Int) (N : Nat) : Except PyError (Int × Int × Int) :=
  let st := step.getD 1
  if st = 0 then .error .stepZero
  else
    let s : Int := match start with
      | .none => if st < 0 then (N : Int) - 1 else 0
      | .some v => if st < 0 then pyClampNeg v N else pyClampPos v N
    let e : Int := match stop with
      | .none => if st < 0 then -1 else N
      | .some v => if st < 0 then pyClampNeg v N else pyClampPos v N
    .ok (s, e, st)

/-- The body of `_convert_to_nice_slice` (collect.py:88-125): builds the
`temp_slice` for each accepted shape of `r` and resolves it with
`slice.indices(N)`.  The single-int case is shared with one-element lists
(collect.py:105-106 delegates `[a]` to the int case). -/
def convertIntCore (v : Int) (N : Nat) : Except PyError (Int × Int × Int) :=
  if v ≥ (N : Int) ∨ v < -(N : Int) then .error .outOfRange
  else if v = -1 then sliceIndices (some v) none none N
  else sliceIndices (some v) (some (v + 1)) none N

/-- The wrap applied to each bound of a two-element range spec
(collect.py:109-112): a negative value has `N` added once. -/
def pyWrap (v : Int) (N : Nat) : Int :=
  if v < 0 then v + N else v

/-- Case dispatch of `_convert_to_nice_slice` (collect.py:90-122). -/
def convertCore (r : RangeSpec) (N : Nat) : Except PyError (Int × Int × Int) :=
  match r with
  | .none => sliceIndices none (some N) none N
  | .slice a b c => sliceIndices a b c N
  | .int v => convertIntCore v N
  | .list [] => sliceIndices none (some N) none N
  | .list [a] => convertIntCore a N
  | .list [a, b] =>
      if pyWrap a N > pyWrap b N then .error .startAfterEnd
      else sliceIndices (some (pyWrap a N)) (some (pyWrap b N + 1)) none N
  | .list [a, b, c] => sliceIndices (some a) (some b) (some c) N
  | .list _ => .error .badArity

/-- Translation of `_convert_to_nice_slice(r, N)` (collect.py:61-125): fails on `N = 0`,
otherwise returns a slice whose start, stop and step are all concrete
(wrapped in `some` — the Python result is `slice(*temp_slice.indices(N))`,
a slice with no `None` components). -/
def _convert_to_nice_slice (r : RangeSpec) (N : Nat) : Except PyError PySlice :=
  if N = 0 then .error .noData
  else
    match convertCore r N with
    | .ok t => .ok ⟨some t.1, some t.2.1, some t.2.2⟩
    | .error e => .error e

/-- The two failure sites of `findVar`: the ambiguous raise inside the
case-insensitive match branch (collect.py:46) and the final raise
(collect.py:58). -/
inductive FindVarError where
  | ambiguous
  | notFound
  deriving DecidableEq, Repr

/-- Python `str.lower()`, character by character. -/
def pyLower (s : String) : String :=
  ⟨s.data.map Char.toLower⟩

/-- Python `s[:k]`: the first `k` characters. -/
def pyTake (s : String) (k : Nat) : String :=
  ⟨s.data.take k⟩

/-- Translation of `findVar(varname, varlist)` (collect.py:16-58): case-insensitive exact
match first (unique → return it, several → ambiguous error), then unique
case-insensitive prefix match (`name[:len(varname)].lower() ==
varname.lower()`), else not-found error. -/
def findVar (varname : String) (varlist : List String) : Except FindVarError String :=
  match varlist.filter (fun n => pyLower n == pyLower varname) with
  | [v] => .ok v
  | _ :: _ :: _ => .error .ambiguous
  | [] =>
    match varlist.filter (fun n => pyLower (pyTake n varname.length) == pyLower varname) with
    | [v] => .ok v
    | _ => .error .notFound

/-- The clipped local range of one axis on one process together with the
accumulated `inrange` flag, as computed by `_collect_from_one_proc`. -/
structure Clip1 where
  s : Int
  e : Int
  inr : Bool
  deriving DecidableEq, Repr

/-- The y-axis part of `_collect_from_one_proc` (collect.py:635-683):
translates the requested global y-range `[y0, y1)` into the local frame of
process row `pe`, clamps it to the cells this process contributes, and
records in `inr` whether the code's in-range tests passed.  Mirrors the
source's statement order exactly, including the `ystop < myg - 1` test on
non-first rows and the upper-target `±myg` adjustments. -/
def clipY (pe nype mysub myg : Int) (yguards : Bool) (yUpper : Option Int)
    (y0 y1 : Int) : Clip1 :=
  if yguards then
    let a0 := y0 - pe * mysub
    let b0 := y1 - pe * mysub
    let inr1 : Bool := if pe = 0 then !decide (b0 ≤ 0) else !decide (b0 < myg - 1)
    let a1 := if pe = 0 then (if a0 < 0 then 0 else a0)
              else (if a0 < myg then myg else a0)
    let a2 := match yUpper with
      | .some u => if pe - 1 = u then a1 - myg else a1
      | .none => a1
    let inr2 : Bool := if pe = nype - 1 then inr1 && !decide (a2 ≥ mysub + 2 * myg)
                       else inr1 && !decide (a2 ≥ mysub + myg)
    let b1 := if pe = nype - 1 then (if b0 > mysub + 2 * myg then mysub + 2 * myg else b0)
              else (if b0 > mysub + myg then mysub + myg else b0)
    let b2 := match yUpper with
      | .some u => if pe = u then b1 + myg else b1
      | .none => b1
    ⟨a2, b2, inr2⟩
  else
    let a0 := y0 - pe * mysub + myg
    let b0 := y1 - pe * mysub + myg
    let inr : Bool := !decide (a0 ≥ mysub + myg) && !decide (b0 ≤ myg)
    ⟨if a0 < myg then myg else a0, if b0 > mysub + myg then myg + mysub else b0, inr⟩

/-- The x-axis part of `_collect_from_one_proc` (collect.py:685-727):
same translation and clamping for process column `pe` (no upper target
exists on the x axis). -/
def clipX (pe nxpe mxsub mxg : Int) (xguards : Bool) (x0 x1 : Int) : Clip1 :=
  if xguards then
    let a0 := x0 - pe * mxsub
    let b0 := x1 - pe * mxsub
    let inr1 : Bool := if pe = 0 then !decide (b0 ≤ 0) else !decide (b0 ≤ mxg)
    let a1 := if pe = 0 then (if a0 < 0 then 0 else a0)
              else (if a0 < mxg then mxg else a0)
    let inr2 : Bool := if pe = nxpe - 1 then inr1 && !decide (a1 ≥ mxsub + 2 * mxg)
                       else inr1 && !decide (a1 ≥ mxsub + mxg)
    let b1 := if pe = nxpe - 1 then (if b0 > mxsub + 2 * mxg then mxsub + 2 * mxg else b0)
              else (if b0 > mxsub + mxg then mxsub + mxg else b0)
    ⟨a1, b1, inr2⟩
  else
    let a0 := x0 - pe * mxsub + mxg
    let b0 := x1 - pe * mxsub + mxg
    let inr : Bool := !decide (a0 ≥ mxsub + mxg) && !decide (b0 ≤ mxg)
    ⟨if a0 < mxg then mxg else a0, if b0 > mxsub + mxg then mxg + mxsub else b0, inr⟩

/-- The numpy assignment `result[xg0:xg1, yg0:yg1] = file[xstart:, ystart:]`
(collect.py:810): every global point inside the destination rectangle
receives the corresponding local element, everything else is unchanged. -/
def writeXY (xg0 xg1 yg0 yg1 xstart ystart : Int)
    (file : Nat → Nat → Int) (result : Nat → Nat → Int) : Nat → Nat → Int :=
  fun gx gy =>
    if xg0 ≤ (gx : Int) ∧ (gx : Int) < xg1 ∧ yg0 ≤ (gy : Int) ∧ (gy : Int) < yg1 then
      file (xstart + ((gx : Int) - xg0)).toNat (ystart + ((gy : Int) - yg0)).toNat
    else result gx gy

/-- Translation of `_collect_from_one_proc` specialized to a `('x','y')` variable
(collect.py:629-815, with `is_fieldperp=False`, `parallel_read=False`):
computes the process coordinates, clips both axes, and if in range copies
the local sub-array `file[xstart:xstop, ystart:ystop]` into the global
buffer at `[xg0:xg1, yg0:yg1]`.  The second component records whether a
`datafile.read` was performed.  A file is a function from local `(x, y)`
indices to values; the buffer is a function from global indices. -/
def extractXY (i nxpe nype mxsub mysub mxg myg : Nat) (xguards yguards : Bool)
    (yUpper : Option Int) (x0 x1 y0 y1 : Int)
    (file : Nat → Nat → Int) (result : Nat → Nat → Int) :
    (Nat → Nat → Int) × Bool :=
  let pe_y : Int := (i / nxpe : Nat)
  let pe_x : Int := (i % nxpe : Nat)
  let cy := clipY pe_y nype mysub myg yguards yUpper y0 y1
  let cx := clipX pe_x nxpe mxsub mxg xguards x0 x1
  if cx.inr && cy.inr then
    -- destination offsets (collect.py:743-757); the upper-target
    -- correction (+2*myg on both bounds, applied only when y-guards are
    -- kept) is factored out as a common shift
    let xg0 := if xguards then cx.s + pe_x * mxsub - x0 else cx.s + pe_x * mxsub - mxg - x0
    let xg1 := if xguards then cx.e + pe_x * mxsub - x0 else cx.e + pe_x * mxsub - mxg - x0
    let yShift : Int := if yguards then
        (match yUpper with
         | .some u => if pe_y > u then 2 * myg else 0
         | .none => 0)
      else 0
    let yg0 := (if yguards then cy.s + pe_y * mysub - y0
                else cy.s + pe_y * mysub - myg - y0) + yShift
    let yg1 := (if yguards then cy.e + pe_y * mysub - y0
                else cy.e + pe_y * mysub - myg - y0) + yShift
    (writeXY xg0 xg1 yg0 yg1 cx.s cy.s file result, true)
  else (result, false)

/-- The per-file loop of `collect` for an `('x','y')` variable
(collect.py:434-489): a zero-initialised global buffer successively
updated by every process `0 ≤ i < nxpe*nype`. -/
def assembleXY (files : Nat → Nat → Nat → Int) (nxpe nype mxsub mysub mxg myg : Nat)
    (xguards yguards : Bool) (yUpper : Option Int) (x0 x1 y0 y1 : Int) :
    Nat → Nat → Int :=
  (List.range (nxpe * nype)).foldl
    (fun acc i =>
      (extractXY i nxpe nype mxsub mysub mxg myg xguards yguards yUpper
        x0 x1 y0 y1 (files i) acc).1)
    (fun _ _ => 0)

/-- The indices selected by a numpy basic slice `[::s]` on an axis of
length `n` (for a positive step `s`): all indices below `n` divisible by
`s`.  Used to model the post-loop re-slicing at collect.py:491-508. -/
def stridedIndices (n s : Nat) : List Nat :=
  (List.range n).filter (fun k => k % s == 0)

/-- Length of the decimated axis `[::s]`. -/
def stridedCount (n s : Nat) : Nat :=
  (stridedIndices n s).length

/-- Multi-file `collect` specialized to a `('x','y')` variable
(collect.py:282-520, the branches exercised by such a variable):
computes `nx`/`ny` from the topology and guard flags (collect.py:372-393,
without the `include_upper` extension, whose upper-target row is passed in
as `yUpper`), normalizes both axis specs, allocates the output
(failing like `np.zeros` on a negative size), runs the per-file loop at
full resolution, and finally applies the step decimation of
collect.py:491-508 (the steps are always concrete ints here, so that
branch always runs; this model covers the non-negative steps the claims
exercise — a negative numpy step would reverse the axis instead).
Returns the two axis sizes of the result and the result as a function. -/
def collectXY (files : Nat → Nat → Nat → Int) (nxpe nype mxsub mysub mxg myg : Nat)
    (xguards yguards : Bool) (yUpper : Option Int) (xspec yspec : RangeSpec) :
    Except PyError (Nat × Nat × (Nat → Nat → Int)) :=
  let nx := if xguards then nxpe * mxsub + 2 * mxg else nxpe * mxsub
  let ny := if yguards then mysub * nype + 2 * myg else mysub * nype
  match _convert_to_nice_slice xspec nx, _convert_to_nice_slice yspec ny with
  | .ok xs, .ok ys =>
    let x0 := xs.start.getD 0
    let x1 := xs.stop.getD 0
    let y0 := ys.start.getD 0
    let y1 := ys.stop.getD 0
    if x1 - x0 < 0 ∨ y1 - y0 < 0 then .error .negDims
    else
      let dataFull := assembleXY files nxpe nype mxsub mysub mxg myg
        xguards yguards yUpper x0 x1 y0 y1
      let sx := (xs.step.getD 1).toNat
      let sy := (ys.step.getD 1).toNat
      .ok (stridedCount (x1 - x0).toNat sx, stridedCount (y1 - y0).toNat sy,
           fun j k => dataFull (j * sx) (k * sy))
  | .error e, _ => .error e
  | _, .error e => .error e

/-- One per-process dump file as seen by the FieldPerp path: the
variable's `yindex_global` attribute and its local `(x, z)` data. -/
structure PerpFile where
  yindex_global : Int
  data : Nat → Nat → Int

/-- The parameters of one multi-file FieldPerp collection that are fixed
across the per-file loop: topology, guard flags, upper-target row, and the
canonical global ranges (`z0` is the start of the canonical z-range). -/
structure PerpCfg where
  nxpe : Nat
  nype : Nat
  mxsub : Nat
  mysub : Nat
  mxg : Nat
  myg : Nat
  xguards : Bool
  yguards : Bool
  yUpper : Option Int
  x0 : Int
  x1 : Int
  y0 : Int
  y1 : Int
  z0 : Int

/-- Whether process `i` contributes FieldPerp data: it must pass the
in-range tests of `_collect_from_one_proc` (collect.py:633-730) and its
`yindex_global` attribute must be non-negative (collect.py:803-808); if so
the contributed value is that attribute.  This depends only on the file
and the fixed parameters, not on the output buffer. -/
def perpContrib (cfg : PerpCfg) (i : Nat) (file : PerpFile) : Option Int :=
  let pe_y : Int := (i / cfg.nxpe : Nat)
  let pe_x : Int := (i % cfg.nxpe : Nat)
  let cy := clipY pe_y cfg.nype cfg.mysub cfg.myg cfg.yguards cfg.yUpper cfg.y0 cfg.y1
  let cx := clipX pe_x cfg.nxpe cfg.mxsub cfg.mxg cfg.xguards cfg.x0 cfg.x1
  if cx.inr && cy.inr then
    if file.yindex_global < 0 then none else some file.yindex_global
  else none

/-- Translation of `_collect_from_one_proc` specialized to a FieldPerp (`('x','z')`)
variable (collect.py:629-815 with `is_fieldperp=True`): out-of-range files
and files whose `yindex_global` is negative return without reading data;
otherwise the local `[xstart:xstop, z-range]` block is copied into the
global buffer (global y is absent; global z takes the whole axis,
collect.py:774-775) and the discovered `yindex_global` is returned for
cross-file validation. -/
def extractPerp (cfg : PerpCfg) (i : Nat) (file : PerpFile)
    (result : Nat → Nat → Int) : (Nat → Nat → Int) × Option Int :=
  let pe_y : Int := (i / cfg.nxpe : Nat)
  let pe_x : Int := (i % cfg.nxpe : Nat)
  let cy := clipY pe_y cfg.nype cfg.mysub cfg.myg cfg.yguards cfg.yUpper cfg.y0 cfg.y1
  let cx := clipX pe_x cfg.nxpe cfg.mxsub cfg.mxg cfg.xguards cfg.x0 cfg.x1
  if cx.inr && cy.inr then
    if file.yindex_global < 0 then (result, none)
    else
      let xg0 := if cfg.xguards then cx.s + pe_x * cfg.mxsub - cfg.x0
                 else cx.s + pe_x * cfg.mxsub - cfg.mxg - cfg.x0
      let xg1 := if cfg.xguards then cx.e + pe_x * cfg.mxsub - cfg.x0
                 else cx.e + pe_x * cfg.mxsub - cfg.mxg - cfg.x0
      ((fun gx gz =>
          if xg0 ≤ (gx : Int) ∧ (gx : Int) < xg1 then
            file.data (cx.s + ((gx : Int) - xg0)).toNat (cfg.z0 + gz).toNat
          else result gx gz),
       some file.yindex_global)
  else (result, none)

/-- The FieldPerp accumulation state of the `collect` loop
(collect.py:436-443): output buffer, the discovered global y-index and the
owning process row. -/
structure PerpState where
  buf : Nat → Nat → Int
  yig : Option Int
  yproc : Option Nat

/-- One iteration of the `collect` loop for a FieldPerp variable
(collect.py:444-489): run the extractor, and if it found data, check the
global y-index and owning process row against previously discovered
values, failing on a mismatch. -/
def perpStep (cfg : PerpCfg) (files : Nat → PerpFile) (s : PerpState) (i : Nat) :
    Except PyError PerpState :=
  let r := extractPerp cfg i (files i) s.buf
  match r.2 with
  | .none => .ok ⟨r.1, s.yig, s.yproc⟩
  | .some ty =>
    match s.yig with
    | .some v =>
      if v ≠ ty then .error .inconsistentYIndex
      else
        match s.yproc with
        | .some r' => if r' ≠ i / cfg.nxpe then .error .inconsistentYProc
                      else .ok ⟨r.1, some ty, some (i / cfg.nxpe)⟩
        | .none => .ok ⟨r.1, some ty, some (i / cfg.nxpe)⟩
    | .none =>
        match s.yproc with
        | .some r' => if r' ≠ i / cfg.nxpe then .error .inconsistentYProc
                      else .ok ⟨r.1, some ty, some (i / cfg.nxpe)⟩
        | .none => .ok ⟨r.1, some ty, some (i / cfg.nxpe)⟩

/-- The FieldPerp per-file loop, aborting at the first failure (a raised
ValueError in the source aborts the whole request). -/
def perpLoop (cfg : PerpCfg) (files : Nat → PerpFile) :
    List Nat → PerpState → Except PyError PerpState
  | [], s => .ok s
  | i :: rest, s =>
    match perpStep cfg files s i with
    | .error e => .error e
    | .ok s' => perpLoop cfg files rest s'

/-- The whole FieldPerp loop of `collect` over processes
`0 ≤ i < nxpe*nype`, starting from a zeroed buffer and no discovered
y-index or owning row. -/
def collectPerpLoop (cfg : PerpCfg) (files : Nat → PerpFile) :
    Except PyError PerpState :=
  perpLoop cfg files (List.range (cfg.nxpe * cfg.nype)) ⟨fun _ _ => 0, none, none⟩

/-- Translation of `getDataFile(i)` (collect.py:181-189): fetches entry `i` of the file
list (or of the cache's `datafile_list`); a Python list index beyond the
end raises an IndexError. -/
def getDataFile {α : Type} (file_list : List α) (i : Nat) : Except PyError α :=
  if h : i < file_list.length then .ok (file_list.get ⟨i, h⟩) else .error .indexError

/-- Opening each requested file in turn, as the loop head
`for i in range(npe): f = getDataFile(i)` does (collect.py:444-445). -/
def openAll {α : Type} (file_list : List α) : List Nat → Except PyError Unit
  | [] => .ok ()
  | i :: rest =>
    match getDataFile file_list i with
    | .error e => .error e
    | .ok _ => openAll file_list rest

/-- The file accesses performed by the per-file loop of `collect`: one
`getDataFile(i)` for every `i` in `range(nxpe*nype)` (collect.py:444-445),
regardless of how many files were actually found. -/
def collectLoopOpen {α : Type} (file_list : List α) (npe : Nat) : Except PyError Unit :=
  openAll file_list (List.range npe)

/-- Dimension tags of a variable. -/
inductive Dim where
  | t
  | x
  | y
  | z
  deriving DecidableEq, Repr

/-- Translation of `any(dim in dimensions for dim in ('x','y','z'))` (collect.py:405). -/
def hasSpatial (dims : List Dim) : Bool :=
  dims.contains .x || dims.contains .y || dims.contains .z

/-- The post-loop re-slicing stage (collect.py:491-508): if either
normalized x or y slice carries a non-`None` step, re-slice the assembled
buffer — recognizing exactly the six Field dimension tuples and raising
ValueError "Incorrect dimensions ... applying steps" for anything else.
Only the control flow is modelled here; the actual decimation for the
`('x','y')` shape is in `collectXY`. -/
def applyStepReslice (dims : List Dim) (xstep ystep : Option Int) : Except PyError Unit :=
  if xstep ≠ none ∨ ystep ≠ none then
    if dims = [.t, .x, .y, .z] ∨ dims = [.x, .y, .z] ∨ dims = [.t, .x, .y] ∨
       dims = [.t, .x, .z] ∨ dims = [.x, .y] ∨ dims = [.x, .z] then .ok ()
    else .error .incorrectDims
  else .ok ()

/-- The control flow of multi-file `collect` from dimension inspection to
the re-slicing stage (collect.py:296-308, 395-421, 491-508), for a
variable with dimension tags `dims`: scalars return after a direct read,
more than four dimensions fail, axis specs are normalized (only x and y
are modelled; z and t behave like x with no guard adjustments),
non-spatial variables return after a read from file 0, and spatial ones
run the per-file loop and then the re-slicing stage.  For dimension
tuples in the file format's fixed `(t?,x?,y?,z?)` order the per-file loop
only performs shape-consistent ranged reads and assignments and raises
nothing, so it is modelled as proceeding to the re-slicing stage. -/
def collectControl (dims : List Dim) (xspec yspec : RangeSpec) (nx ny : Nat) :
    Except PyError Unit :=
  if dims.length = 0 then .ok ()
  else if dims.length > 4 then .error .tooManyDims
  else
    match _convert_to_nice_slice xspec nx, _convert_to_nice_slice yspec ny with
    | .ok xs, .ok ys =>
      if hasSpatial dims then applyStepReslice dims xs.step ys.step
      else .ok ()
    | .error e, _ => .error e
    | _, .error e => .error e

/-- The axis-spec shapes for which the canonical-range bounds property of
C2 actually holds: absent, single integer, or a two-element pair whose
raw bounds are both at least `-N` (so that one wrap makes them
non-negative). -/
def specInBounds : RangeSpec → Nat → Prop
  | .none, _ => True
  | .int _, _ => True
  | .list [a, b], N => -(N : Int) ≤ a ∧ -(N : Int) ≤ b
  | _, _ => False

/-! ## Properties of the index normalizer -/

/-- Resolving `slice.indices` with a `None` step gives step 1 with both bounds
clamped by the positive-step rule. -/
theorem sliceIndices_ss (v w : Int) (N : Nat) :
    sliceIndices (some v) (some w) none N = .ok (pyClampPos v N, pyClampPos w N, 1) := by
  unfold sliceIndices
  norm_num

theorem sliceIndices_sn (v : Int) (N : Nat) :
    sliceIndices (some v) none none N = .ok (pyClampPos v N, (N : Int), 1) := by
  unfold sliceIndices
  norm_num

theorem sliceIndices_ns (w : Int) (N : Nat) :
    sliceIndices none (some w) none N = .ok (0, pyClampPos w N, 1) := by
  unfold sliceIndices
  norm_num

theorem pyClampPos_nonneg (v : Int) (N : Nat) : 0 ≤ pyClampPos v N := by
  unfold pyClampPos
  split_ifs <;> omega

theorem pyClampPos_le (v : Int) (N : Nat) : pyClampPos v N ≤ N := by
  unfold pyClampPos
  split_ifs <;> omega

theorem pyClampPos_mono_nonneg (u v : Int) (N : Nat) (hu : 0 ≤ u) (huv : u ≤ v) :
    pyClampPos u N ≤ pyClampPos v N := by
  unfold pyClampPos
  split_ifs <;> omega

/-- Unfolding `_convert_to_nice_slice` when the axis is non-empty. -/
theorem convert_eq_core (r : RangeSpec) (N : Nat) (hN0 : ¬N = 0) :
    _convert_to_nice_slice r N =
      match convertCore r N with
      | .ok t => .ok ⟨some t.1, some t.2.1, some t.2.2⟩
      | .error e => .error e := by
  unfold _convert_to_nice_slice
  rw [if_neg hN0]

theorem convertCore_none_eq (N : Nat) :
    convertCore .none N = sliceIndices none (some N) none N := rfl

theorem convertCore_int_eq (v : Int) (N : Nat) :
    convertCore (.int v) N = convertIntCore v N := rfl

theorem convertCore_pair_eq (a b : Int) (N : Nat) :
    convertCore (.list [a, b]) N =
      if pyWrap a N > pyWrap b N then .error .startAfterEnd
      else sliceIndices (some (pyWrap a N)) (some (pyWrap b N + 1)) none N := rfl

/-- Whatever `_convert_to_nice_slice` returns successfully has all three
slice components concrete (non-`None`), exactly as
`slice(*temp_slice.indices(N))` does. -/
theorem convert_all_some (r : RangeSpec) (N : Nat) (ps : PySlice)
    (h : _convert_to_nice_slice r N = .ok ps) :
    ∃ s e st : Int, ps = ⟨some s, some e, some st⟩ := by
  unfold _convert_to_nice_slice at h
  split at h
  · exact absurd h (by simp)
  · cases hc : convertCore r N with
    | ok t =>
      rw [hc] at h
      simp only [Except.ok.injEq] at h
      exact ⟨t.1, t.2.1, t.2.2, h.symm⟩
    | error e => rw [hc] at h; exact absurd h (by simp)

/-- Case analysis of the single-integer branch of the normalizer: the
out-of-range failure condition and the three successful outcomes. -/
theorem convertInt_spec (N : Nat) (hN : 1 ≤ N) (r : Int) :
    (_convert_to_nice_slice (.int r) N = .error .outOfRange ↔ (r < -(N : Int) ∨ (N : Int) ≤ r))
    ∧ (-(N : Int) ≤ r → r < -1 →
        _convert_to_nice_slice (.int r) N =
          .ok ⟨some ((N : Int) + r), some ((N : Int) + r + 1), some 1⟩)
    ∧ (r = -1 →
        _convert_to_nice_slice (.int r) N =
          .ok ⟨some ((N : Int) - 1), some (N : Int), some 1⟩)
    ∧ (0 ≤ r → r < (N : Int) →
        _convert_to_nice_slice (.int r) N = .ok ⟨some r, some (r + 1), some 1⟩) := by
  have hN0 : ¬(N = 0) := by omega
  rw [convert_eq_core _ _ hN0, convertCore_int_eq]
  unfold convertIntCore
  refine ⟨?_, ?_, ?_, ?_⟩
  · constructor
    · intro h
      by_contra hcon
      push_neg at hcon
      rw [if_neg (by omega)] at h
      by_cases hm : r = -1
      · rw [if_pos hm, sliceIndices_sn] at h
        exact absurd h (by simp)
      · rw [if_neg hm, sliceIndices_ss] at h
        exact absurd h (by simp)
    · intro h
      rw [if_pos (by omega)]
  · intro h1 h2
    rw [if_neg (by omega), if_neg (by omega), sliceIndices_ss]
    have e1 : pyClampPos r N = (N : Int) + r := by unfold pyClampPos; split_ifs <;> omega
    have e2 : pyClampPos (r + 1) N = (N : Int) + r + 1 := by
      unfold pyClampPos; split_ifs <;> omega
    rw [e1, e2]
  · intro h
    subst h
    rw [if_neg (by omega), if_pos rfl, sliceIndices_sn]
    have e1 : pyClampPos (-1) N = (N : Int) - 1 := by unfold pyClampPos; split_ifs <;> omega
    rw [e1]
  · intro h1 h2
    rw [if_neg (by omega), if_neg (by omega), sliceIndices_ss]
    have e1 : pyClampPos r N = r := by unfold pyClampPos; split_ifs <;> omega
    have e2 : pyClampPos (r + 1) N = r + 1 := by unfold pyClampPos; split_ifs <;> omega
    rw [e1, e2]

/-- C4: for `N ≥ 1` and a single-integer spec `r`, `_convert_to_nice_slice`
fails with the out-of-range error iff `r < -N` or `r ≥ N`; for in-range
negative `r ≠ -1` it yields the one-element range `[N+r, N+r+1)` step 1;
for `r = -1` it yields `[N-1, N)`; for `0 ≤ r < N` it yields `[r, r+1)`. -/
theorem c4_single_index (N : Nat) (hN : 1 ≤ N) (r : Int) :
    (_convert_to_nice_slice (.int r) N = .error .outOfRange ↔ (r < -(N : Int) ∨ (N : Int) ≤ r))
    ∧ (-(N : Int) ≤ r → r < -1 →
        _convert_to_nice_slice (.int r) N =
          .ok ⟨some ((N : Int) + r), some ((N : Int) + r + 1), some 1⟩)
    ∧ (r = -1 →
        _convert_to_nice_slice (.int r) N =
          .ok ⟨some ((N : Int) - 1), some (N : Int), some 1⟩)
    ∧ (0 ≤ r → r < (N : Int) →
        _convert_to_nice_slice (.int r) N = .ok ⟨some r, some (r + 1), some 1⟩) :=
  convertInt_spec N hN r

/-- Witness for C4: `r = -3` against `N = 5` selects `[2, 3)`. -/
theorem c4_single_index_witness :
    _convert_to_nice_slice (.int (-3)) 5 = .ok ⟨some 2, some 3, some 1⟩ :=
  (c4_single_index 5 (by norm_num) (-3)).2.1 (by norm_num) (by norm_num)

/-- Counterexample to C2 as stated: a three-element spec `[5, 2, 1]`
normalizes without failing to `(5, 2, 1)` with `start > stop`, and a
two-element spec `[-6, -6]` against `N = 5` normalizes to `(4, 0, 1)`,
also with `start > stop`. -/
theorem c2_counterexample :
    _convert_to_nice_slice (.list [5, 2, 1]) 10 = .ok ⟨some 5, some 2, some 1⟩
    ∧ ¬((5 : Int) ≤ 2)
    ∧ _convert_to_nice_slice (.list [-6, -6]) 5 = .ok ⟨some 4, some 0, some 1⟩
    ∧ ¬((4 : Int) ≤ 0) :=
  ⟨rfl, by norm_num, rfl, by norm_num⟩

/-- C2 (amended): for specs of shape absent, single integer, or
two-element pair with both raw bounds at least `-N`, a successful
normalization satisfies `0 ≤ start ≤ stop ≤ N` and `step ≠ 0`.  (As
stated the claim fails for three-element specs and for two-element bounds
below `-N`; see the counterexample.) -/
theorem c2_amended (N : Nat) (hN : 1 ≤ N) (r : RangeSpec) (hr : specInBounds r N)
    (s e st : Int)
    (h : _convert_to_nice_slice r N = .ok ⟨some s, some e, some st⟩) :
    0 ≤ s ∧ s ≤ e ∧ e ≤ (N : Int) ∧ st ≠ 0 := by
  have hN0 : ¬(N = 0) := by omega
  match r with
  | .none =>
    rw [convert_eq_core _ _ hN0, convertCore_none_eq, sliceIndices_ns] at h
    simp only [Except.ok.injEq, PySlice.mk.injEq, Option.some.injEq] at h
    obtain ⟨h1, h2, h3⟩ := h
    have e1 : pyClampPos (N : Int) N = (N : Int) := by
      unfold pyClampPos; split_ifs <;> omega
    rw [e1] at h2
    omega
  | .int v =>
    by_cases hout : v ≥ (N : Int) ∨ v < -(N : Int)
    · have := ((convertInt_spec N hN v).1).2 (by omega)
      rw [this] at h
      exact absurd h (by simp)
    · push_neg at hout
      by_cases hm1 : v = -1
      · have := (convertInt_spec N hN v).2.2.1 hm1
        rw [this] at h
        simp only [Except.ok.injEq, PySlice.mk.injEq, Option.some.injEq] at h
        omega
      · by_cases hneg : v < 0
        · have := (convertInt_spec N hN v).2.1 (by omega) (by omega)
          rw [this] at h
          simp only [Except.ok.injEq, PySlice.mk.injEq, Option.some.injEq] at h
          omega
        · have := (convertInt_spec N hN v).2.2.2 (by omega) (by omega)
          rw [this] at h
          simp only [Except.ok.injEq, PySlice.mk.injEq, Option.some.injEq] at h
          omega
  | .list [a, b] =>
    obtain ⟨ha, hb⟩ := hr
    rw [convert_eq_core _ _ hN0, convertCore_pair_eq] at h
    by_cases hord : pyWrap a N > pyWrap b N
    · rw [if_pos hord] at h
      exact absurd h (by simp)
    · rw [if_neg hord, sliceIndices_ss] at h
      simp only [Except.ok.injEq, PySlice.mk.injEq, Option.some.injEq] at h
      obtain ⟨h1, h2, h3⟩ := h
      subst h1 h2 h3
      have hwa : 0 ≤ pyWrap a N := by unfold pyWrap; split_ifs <;> omega
      have hwb : pyWrap a N ≤ pyWrap b N + 1 := by omega
      refine ⟨pyClampPos_nonneg _ _, ?_, pyClampPos_le _ _, by norm_num⟩
      exact pyClampPos_mono_nonneg _ _ _ hwa hwb

/-- Witness for C2 (amended): spec `[1, 2]` against `N = 4`. -/
theorem c2_amended_witness : (0 : Int) ≤ 1 ∧ (1 : Int) ≤ 3 ∧ (3 : Int) ≤ 4 ∧ (1 : Int) ≠ 0 :=
  c2_amended 4 (by norm_num) (.list [1, 2]) ⟨by norm_num, by norm_num⟩ 1 3 1 rfl

/-- Counterexample to C5 as stated: for `[0, 5]` against `N = 5` the
claimed result is the unclamped `[a', b'+1) = [0, 6)`, but the code
returns the clamped `[0, 5)`. -/
theorem c5_counterexample :
    _convert_to_nice_slice (.list [0, 5]) 5 = .ok ⟨some 0, some 5, some 1⟩
    ∧ (some (5 : Int) : Option Int) ≠ some (5 + 1) :=
  ⟨rfl, by norm_num⟩

/-- C5 (amended): each negative bound of `[a, b]` is wrapped once by `+N`;
if after wrapping the start exceeds the end the normalizer fails; the
result is `[a', b'+1)` *clamped* into `[0, N]` by the Python slice
resolution (so e.g. a stop beyond `N` is capped at `N`); in particular
`[a, -1]` with `0 ≤ a < N` normalizes to `[a, N)`. -/
theorem c5_amended (N : Nat) (hN : 1 ≤ N) (a b : Int) :
    (pyWrap a N > pyWrap b N →
      _convert_to_nice_slice (.list [a, b]) N = .error .startAfterEnd)
    ∧ (pyWrap a N ≤ pyWrap b N →
      _convert_to_nice_slice (.list [a, b]) N =
        .ok ⟨some (pyClampPos (pyWrap a N) N), some (pyClampPos (pyWrap b N + 1) N), some 1⟩)
    ∧ (0 ≤ a → a < (N : Int) → b = -1 →
      _convert_to_nice_slice (.list [a, b]) N = .ok ⟨some a, some (N : Int), some 1⟩) := by
  have hN0 : ¬(N = 0) := by omega
  refine ⟨?_, ?_, ?_⟩
  · intro h
    rw [convert_eq_core _ _ hN0, convertCore_pair_eq, if_pos h]
  · intro h
    rw [convert_eq_core _ _ hN0, convertCore_pair_eq, if_neg (by omega),
      sliceIndices_ss]
  · intro h1 h2 h3
    subst h3
    have hwa : pyWrap a N = a := by unfold pyWrap; split_ifs <;> omega
    have hwb : pyWrap (-1) N = (N : Int) - 1 := by unfold pyWrap; split_ifs <;> omega
    rw [convert_eq_core _ _ hN0, convertCore_pair_eq, if_neg (by omega),
      sliceIndices_ss]
    have e1 : pyClampPos (pyWrap a N) N = a := by
      rw [hwa]; unfold pyClampPos; split_ifs <;> omega
    have e2 : pyClampPos (pyWrap (-1) N + 1) N = (N : Int) := by
      rw [hwb]; unfold pyClampPos; split_ifs <;> omega
    rw [e1, e2]

/-- Witness for C5 (amended): `[1, -1]` against `N = 5` gives `[1, 5)`. -/
theorem c5_amended_witness :
    _convert_to_nice_slice (.list [1, -1]) 5 = .ok ⟨some 1, some 5, some 1⟩ :=
  (c5_amended 5 (by norm_num) 1 (-1)).2.2 (by norm_num) (by norm_num) rfl

/-! ## Properties of the name resolver -/

/-- Counterexample to C8 as stated: `"foo"` appears verbatim in
`["foo", "FOO"]`, yet `findVar` fails as ambiguous (both names match the
case-insensitive comparison, so the `len(v) > 1` branch raises). -/
theorem c8_counterexample : findVar ("foo") ["foo", "FOO"] = .error .ambiguous := by
  rfl

/-- C8 (amended): if the requested name appears verbatim in the list and
is moreover its *unique* case-insensitive match (counted with
multiplicity), `findVar` returns it unchanged.  (As stated the claim
fails when another list entry differs only in case; see the
counterexample.) -/
theorem c8_amended (varname : String) (varlist : List String)
    (hmem : varname ∈ varlist)
    (huniq : (varlist.filter (fun n => pyLower n == pyLower varname)).length = 1) :
    findVar varname varlist = .ok varname := by
  have hm : varname ∈ varlist.filter (fun n => pyLower n == pyLower varname) :=
    List.mem_filter.2 ⟨hmem, by simp⟩
  obtain ⟨a, ha⟩ := List.length_eq_one.1 huniq
  rw [ha] at hm
  simp only [List.mem_singleton] at hm
  subst hm
  unfold findVar
  rw [ha]

/-- Witness for C8 (amended). -/
theorem c8_amended_witness :
    findVar ("density") ["density", "pressure"] = .ok ("density") :=
  c8_amended ("density") ["density", "pressure"] (by simp) (by rfl)

/-! ## The per-file loop's file accesses -/

theorem openAll_append {α : Type} (fl : List α) (l1 l2 : List Nat) :
    openAll fl (l1 ++ l2) =
      match openAll fl l1 with
      | .error e => .error e
      | .ok _ => openAll fl l2 := by
  induction l1 with
  | nil => simp [openAll]
  | cons i rest ih =>
    simp only [List.cons_append, openAll]
    cases getDataFile fl i <;> simp [ih]

/-- The loop head `for i in range(npe): f = getDataFile(i)` succeeds iff
`npe` does not exceed the number of files; the first missing file raises
an IndexError. -/
theorem collectLoopOpen_eq {α : Type} (fl : List α) (npe : Nat) :
    collectLoopOpen fl npe =
      if npe ≤ fl.length then .ok () else .error .indexError := by
  induction npe with
  | zero => simp [collectLoopOpen, openAll]
  | succ n ih =>
    unfold collectLoopOpen at ih ⊢
    rw [List.range_succ, openAll_append, ih]
    by_cases hle : n ≤ fl.length
    · rw [if_pos hle]
      by_cases hlt : n < fl.length
      · rw [if_pos (by omega)]
        simp [openAll, getDataFile, hlt]
      · rw [if_neg (by omega)]
        simp [openAll, getDataFile, hlt]
    · rw [if_neg hle, if_neg (by omega)]

/-- Counterexample to C9 as stated: with one file found and a declared
topology of `nxpe*nype = 2` processes, the per-file loop raises an
IndexError fetching file 1 — the collection does *not* complete when
`nxpe*nype` exceeds the number of files. -/
theorem c9_counterexample : collectLoopOpen ["BOUT.dmp.0.nc"] 2 = .error .indexError := by
  rfl

/-- C9 (amended): the `npe != nfiles` comparison itself is only a printed
warning (collect.py:367-370), and the collection's per-file loop completes
whenever `nxpe*nype` is at most the number of files (extra files are
ignored); but when `nxpe*nype` exceeds the number of files the loop fails
with an IndexError while fetching the first missing file. -/
theorem c9_amended {α : Type} (fl : List α) (npe : Nat) :
    (npe ≤ fl.length → collectLoopOpen fl npe = .ok ())
    ∧ (fl.length < npe → collectLoopOpen fl npe = .error .indexError) := by
  refine ⟨fun h => ?_, fun h => ?_⟩
  · rw [collectLoopOpen_eq, if_pos h]
  · rw [collectLoopOpen_eq, if_neg (by omega)]

/-- Witness for C9 (amended): 2 declared processes over 3 files. -/
theorem c9_amended_witness : collectLoopOpen ["a", "b", "c"] 2 = .ok () :=
  (c9_amended ["a", "b", "c"] 2).1 (by simp)

/-! ## The post-loop re-slicing stage -/

/-- C10: in the multi-file path, a variable with a spatial dimension whose
dimension tuple is not one of the six recognized Field shapes always
reaches the re-slicing stage with concrete (non-`None`) steps — the
normalizer never returns a `None` component — so the stage's `else`
branch raises ValueError even when every requested step is 1. -/
theorem c10_unrecognized_dims (dims : List Dim) (xspec yspec : RangeSpec) (nx ny : Nat)
    (hspatial : hasSpatial dims = true)
    (hlen : dims.length ≤ 4)
    (hunrec : ¬(dims = [.t, .x, .y, .z] ∨ dims = [.x, .y, .z] ∨ dims = [.t, .x, .y] ∨
       dims = [.t, .x, .z] ∨ dims = [.x, .y] ∨ dims = [.x, .z]))
    (xs ys : PySlice)
    (hx : _convert_to_nice_slice xspec nx = .ok xs)
    (hy : _convert_to_nice_slice yspec ny = .ok ys) :
    collectControl dims xspec yspec nx ny = .error .incorrectDims := by
  have hd0 : ¬(dims.length = 0) := by
    intro h
    rw [List.length_eq_zero] at h
    subst h
    simp [hasSpatial] at hspatial
  obtain ⟨s, e, st, hxs⟩ := convert_all_some _ _ _ hx
  unfold collectControl
  rw [if_neg hd0, if_neg (by omega), hx, hy]
  show (if hasSpatial dims then applyStepReslice dims xs.step ys.step else Except.ok ())
      = Except.error PyError.incorrectDims
  rw [if_pos hspatial]
  unfold applyStepReslice
  rw [if_pos (Or.inl (by rw [hxs]; simp)), if_neg hunrec]

/-- Witness for C10: a `('y',)` variable with full (step-1) ranges. -/
theorem c10_unrecognized_dims_witness :
    collectControl [Dim.y] .none .none 4 4 = .error .incorrectDims :=
  c10_unrecognized_dims [Dim.y] .none .none 4 4 rfl (by norm_num) (by decide)
    ⟨some 0, some 4, some 1⟩ ⟨some 0, some 4, some 1⟩ rfl rfl

/-! ## Frame behaviour of the per-process extractor -/

/-- A numpy assignment over an empty or inverted destination rectangle
changes nothing. -/
theorem writeXY_empty (xg0 xg1 yg0 yg1 xs ys : Int) (file result : Nat → Nat → Int)
    (h : xg1 ≤ xg0 ∨ yg1 ≤ yg0) :
    writeXY xg0 xg1 yg0 yg1 xs ys file result = result := by
  funext gx gy
  unfold writeXY
  rw [if_neg]
  rintro ⟨h1, h2, h3, h4⟩
  rcases h with h | h <;> omega

/-- Counterexample to C3 as stated: with y-guards kept, `nxpe=1, nype=2`,
`mxsub=mysub=4`, `mxg=myg=2` and canonical ranges `x=[0,8)`, `y=[0,5)`,
process 1's clipped local y-range is `(2, 1)` — inverted — yet the
extractor still performs a (zero-size) read: the in-range test
`ystop < myg - 1` (collect.py:648) does not catch `ystop = myg - 1`. -/
theorem c3_counterexample :
    clipY 1 2 4 2 true none 0 5 = ⟨2, 1, true⟩
    ∧ (extractXY 1 1 2 4 4 2 2 true true none 0 8 0 5
        (fun _ _ => 0) (fun _ _ => 0)).2 = true :=
  ⟨rfl, rfl⟩

/-- C3 (amended): when the extractor's in-range tests fail it returns
without performing any read and leaves the buffer unchanged; and whenever
the clipped local range is empty or inverted on the x or the y axis the
global buffer is left unchanged — though in corner cases (see the
counterexample) a zero-size read is still performed, so "returns without
any read" does not hold for every empty clipped range. -/
theorem c3_amended (i nxpe nype mxsub mysub mxg myg : Nat) (xguards yguards : Bool)
    (yUpper : Option Int) (x0 x1 y0 y1 : Int) (file result : Nat → Nat → Int)
    (cx cy : Clip1)
    (hcx : clipX ((i % nxpe : Nat) : Int) nxpe mxsub mxg xguards x0 x1 = cx)
    (hcy : clipY ((i / nxpe : Nat) : Int) nype mysub myg yguards yUpper y0 y1 = cy) :
    (¬(cx.inr = true ∧ cy.inr = true) →
      extractXY i nxpe nype mxsub mysub mxg myg xguards yguards yUpper x0 x1 y0 y1 file result
        = (result, false))
    ∧ ((cx.e ≤ cx.s ∨ cy.e ≤ cy.s) →
      (extractXY i nxpe nype mxsub mysub mxg myg xguards yguards yUpper
          x0 x1 y0 y1 file result).1 = result) := by
  constructor
  · intro h
    have hb : (cx.inr && cy.inr) = false := by
      cases h1 : cx.inr <;> cases h2 : cy.inr <;> simp_all
    simp only [extractXY]
    rw [hcx, hcy, hb]
    simp
  · intro h
    simp only [extractXY]
    rw [hcx, hcy]
    by_cases hb : (cx.inr && cy.inr) = true
    · rw [if_pos hb]
      show writeXY _ _ _ _ cx.s cy.s file result = result
      apply writeXY_empty
      rcases h with h | h
      · left
        by_cases hxg : xguards = true
        · simp only [if_pos hxg]
          omega
        · simp only [if_neg hxg]
          omega
      · right
        by_cases hyg : yguards = true
        · simp only [if_pos hyg]
          omega
        · simp only [if_neg hyg]
          omega
    · rw [if_neg hb]

/-- Witness for C3 (amended): an x-range entirely outside process 0's band
makes the extractor return `(result, false)`. -/
theorem c3_amended_witness :
    extractXY 0 1 1 4 4 0 0 false false none 10 12 0 4
        (fun _ _ => 0) (fun _ _ => 0)
      = ((fun _ _ => 0), false) :=
  (c3_amended 0 1 1 4 4 0 0 false false none 10 12 0 4 (fun _ _ => 0) (fun _ _ => 0)
    (clipX 0 1 4 0 false 10 12) (clipY 0 1 4 0 false none 0 4) rfl rfl).1 (by decide)

/-! ## Stride decimation -/

theorem stridedCount_succ (n s : Nat) :
    stridedCount (n + 1) s = stridedCount n s + (if n % s = 0 then 1 else 0) := by
  unfold stridedCount stridedIndices
  rw [List.range_succ, List.filter_append, List.length_append]
  by_cases h : n % s = 0
  · simp [h]
  · simp [h]

/-- The length of the decimated axis `[::s]` is `⌈n / s⌉`. -/
theorem stridedCount_eq (n s : Nat) (hs : 1 ≤ s) :
    stridedCount n s = (n + s - 1) / s := by
  induction n with
  | zero =>
    rw [show 0 + s - 1 = s - 1 by omega, Nat.div_eq_of_lt (by omega)]
    rfl
  | succ n ih =>
    rw [stridedCount_succ, ih]
    have e1 : n + 1 + s - 1 = n + s := by omega
    rcases Nat.eq_zero_or_pos n with hn | hn
    · subst hn
      rw [if_pos (Nat.zero_mod s), e1,
        show 0 + s - 1 = s - 1 by omega, Nat.div_eq_of_lt (by omega),
        show 0 + s = s by omega, Nat.div_self (by omega)]
    · have e2 : n + s - 1 = (n - 1) + s := by omega
      have e3 : n = (n - 1) + 1 := by omega
      have h4 : n / s = (n - 1) / s + if s ∣ n then 1 else 0 := by
        conv_lhs => rw [e3]
        rw [Nat.succ_div, ← e3]
      rw [e1, e2, Nat.add_div_right _ (by omega), Nat.add_div_right _ (by omega), h4]
      by_cases hd : s ∣ n
      · rw [if_pos hd, if_pos (Nat.dvd_iff_mod_eq_zero.mp hd)]
      · rw [if_neg hd, if_neg (fun hm => hd (Nat.dvd_iff_mod_eq_zero.mpr hm))]

/-- C6: with positive steps `sx, sy` in the canonical x/y ranges, the
result of `collectXY` has extent `⌈(stop-start)/step⌉` on each axis, and
its `(j, k)` element is element `(j*sx, k*sy)` of the full-resolution
assembly of the *same contiguous ranges* — the per-file extraction never
sees the steps (`extractXY`/`assembleXY` take only the bounds), and the
decimation is applied to the assembled buffer after the loop. -/
theorem c6_stride (files : Nat → Nat → Nat → Int) (nxpe nype mxsub mysub mxg myg : Nat)
    (xguards yguards : Bool) (yUpper : Option Int) (xspec yspec : RangeSpec)
    (a b sx a2 b2 sy : Int)
    (hx : _convert_to_nice_slice xspec
        (if xguards then nxpe * mxsub + 2 * mxg else nxpe * mxsub)
        = .ok ⟨some a, some b, some sx⟩)
    (hy : _convert_to_nice_slice yspec
        (if yguards then mysub * nype + 2 * myg else mysub * nype)
        = .ok ⟨some a2, some b2, some sy⟩)
    (hsx : 1 ≤ sx) (hsy : 1 ≤ sy) (hab : a ≤ b) (hab2 : a2 ≤ b2) :
    collectXY files nxpe nype mxsub mysub mxg myg xguards yguards yUpper xspec yspec
      = .ok (((b - a).toNat + sx.toNat - 1) / sx.toNat,
             ((b2 - a2).toNat + sy.toNat - 1) / sy.toNat,
             fun j k =>
               assembleXY files nxpe nype mxsub mysub mxg myg xguards yguards yUpper
                 a b a2 b2 (j * sx.toNat) (k * sy.toNat)) := by
  simp only [collectXY]
  rw [hx, hy]
  simp only [Option.getD_some]
  rw [if_neg (by omega)]
  rw [stridedCount_eq _ _ (by omega), stridedCount_eq _ _ (by omega)]

/-- Witness for C6: strides 2 and 3 over an 8×8 single-process grid. -/
theorem c6_stride_witness :
    collectXY (fun _ x y => (x : Int) + y) 1 1 8 8 0 0 false false none
        (.list [0, 7, 2]) (.list [0, 7, 3])
      = .ok (4, 3, fun j k =>
          assembleXY (fun _ x y => (x : Int) + y) 1 1 8 8 0 0 false false none
            0 7 0 7 (j * 2) (k * 3)) :=
  c6_stride (fun _ x y => (x : Int) + y) 1 1 8 8 0 0 false false none
    (.list [0, 7, 2]) (.list [0, 7, 3]) 0 7 2 0 7 3 rfl rfl
    (by norm_num) (by norm_num) (by norm_num) (by norm_num)

/-! ## Reassembly round-trip -/

/-- C1: over the synthetic topology `nxpe=2, nype=2, mxsub=mysub=4,
mxg=myg=2`, collecting a 2-D field with guards excluded yields an 8×8
array, with guards included a 12×12 array, and — whatever the per-process
file contents — the interior 8×8 block of the guard-included result
(offset by one guard width on each side) equals the guard-excluded result
element for element. -/
theorem c1_roundtrip (files : Nat → Nat → Nat → Int) :
    ∃ dE dI : Nat → Nat → Int,
      collectXY files 2 2 4 4 2 2 false false none .none .none = .ok (8, 8, dE)
      ∧ collectXY files 2 2 4 4 2 2 true true none .none .none = .ok (12, 12, dI)
      ∧ ∀ i j, i < 8 → j < 8 → dI (i + 2) (j + 2) = dE i j := by
  refine ⟨_, _, rfl, rfl, ?_⟩
  intro i j hi hj
  interval_cases i <;> interval_cases j <;> rfl

/-- Witness for C1 at concrete file contents. -/
theorem c1_roundtrip_witness :
    ∃ dE dI : Nat → Nat → Int,
      collectXY (fun p x y => (100 * p + 10 * x + y : Int)) 2 2 4 4 2 2 false false none
          .none .none = .ok (8, 8, dE)
      ∧ collectXY (fun p x y => (100 * p + 10 * x + y : Int)) 2 2 4 4 2 2 true true none
          .none .none = .ok (12, 12, dI)
      ∧ ∀ i j, i < 8 → j < 8 → dI (i + 2) (j + 2) = dE i j :=
  c1_roundtrip (fun p x y => (100 * p + 10 * x + y : Int))

/-! ## FieldPerp collection -/

theorem extractPerp_snd (cfg : PerpCfg) (i : Nat) (file : PerpFile)
    (result : Nat → Nat → Int) :
    (extractPerp cfg i file result).2 = perpContrib cfg i file := by
  simp only [extractPerp, perpContrib]
  split_ifs <;> rfl

theorem extractPerp_none (cfg : PerpCfg) (i : Nat) (file : PerpFile)
    (result : Nat → Nat → Int) (h : perpContrib cfg i file = none) :
    extractPerp cfg i file result = (result, none) := by
  simp only [perpContrib] at h
  simp only [extractPerp]
  split_ifs at h ⊢ <;> rfl

theorem perpContrib_some (cfg : PerpCfg) (i : Nat) (file : PerpFile) (ty : Int)
    (h : perpContrib cfg i file = some ty) :
    ty = file.yindex_global ∧ 0 ≤ file.yindex_global := by
  simp only [perpContrib] at h
  split_ifs at h with hC hD
  cases h
  exact ⟨rfl, by omega⟩

theorem perpStep_eval_none (cfg : PerpCfg) (files : Nat → PerpFile) (s : PerpState)
    (i : Nat) (hc : perpContrib cfg i (files i) = none) :
    perpStep cfg files s i = .ok s := by
  simp only [perpStep]
  rw [extractPerp_snd, hc, extractPerp_none cfg i (files i) s.buf hc]

theorem perpStep_eval_some_nn (cfg : PerpCfg) (files : Nat → PerpFile) (s : PerpState)
    (i : Nat) (w : Int) (hc : perpContrib cfg i (files i) = some w)
    (h1 : s.yig = none) (h2 : s.yproc = none) :
    perpStep cfg files s i =
      .ok ⟨(extractPerp cfg i (files i) s.buf).1, some w, some (i / cfg.nxpe)⟩ := by
  simp only [perpStep]
  rw [extractPerp_snd, hc, h1, h2]

theorem perpStep_eval_some_sn (cfg : PerpCfg) (files : Nat → PerpFile) (s : PerpState)
    (i : Nat) (w v : Int) (hc : perpContrib cfg i (files i) = some w)
    (h1 : s.yig = some v) (h2 : s.yproc = none) (hv : v = w) :
    perpStep cfg files s i =
      .ok ⟨(extractPerp cfg i (files i) s.buf).1, some w, some (i / cfg.nxpe)⟩ := by
  simp only [perpStep]
  rw [extractPerp_snd, hc, h1, h2]
  show (if v ≠ w then Except.error PyError.inconsistentYIndex
        else Except.ok (⟨(extractPerp cfg i (files i) s.buf).1, some w,
          some (i / cfg.nxpe)⟩ : PerpState))
      = Except.ok ⟨(extractPerp cfg i (files i) s.buf).1, some w, some (i / cfg.nxpe)⟩
  rw [if_neg (not_not_intro hv)]

theorem perpStep_eval_some_ns (cfg : PerpCfg) (files : Nat → PerpFile) (s : PerpState)
    (i : Nat) (w : Int) (ρ : Nat) (hc : perpContrib cfg i (files i) = some w)
    (h1 : s.yig = none) (h2 : s.yproc = some ρ) (hρ : ρ = i / cfg.nxpe) :
    perpStep cfg files s i =
      .ok ⟨(extractPerp cfg i (files i) s.buf).1, some w, some (i / cfg.nxpe)⟩ := by
  simp only [perpStep]
  rw [extractPerp_snd, hc, h1, h2]
  show (if ρ ≠ i / cfg.nxpe then Except.error PyError.inconsistentYProc
        else Except.ok (⟨(extractPerp cfg i (files i) s.buf).1, some w,
          some (i / cfg.nxpe)⟩ : PerpState))
      = Except.ok ⟨(extractPerp cfg i (files i) s.buf).1, some w, some (i / cfg.nxpe)⟩
  rw [if_neg (not_not_intro hρ)]

theorem perpStep_eval_some_ss (cfg : PerpCfg) (files : Nat → PerpFile) (s : PerpState)
    (i : Nat) (w v : Int) (ρ : Nat) (hc : perpContrib cfg i (files i) = some w)
    (h1 : s.yig = some v) (h2 : s.yproc = some ρ) (hv : v = w) (hρ : ρ = i / cfg.nxpe) :
    perpStep cfg files s i =
      .ok ⟨(extractPerp cfg i (files i) s.buf).1, some w, some (i / cfg.nxpe)⟩ := by
  simp only [perpStep]
  rw [extractPerp_snd, hc, h1, h2]
  show (if v ≠ w then Except.error PyError.inconsistentYIndex
        else if ρ ≠ i / cfg.nxpe then Except.error PyError.inconsistentYProc
        else Except.ok (⟨(extractPerp cfg i (files i) s.buf).1, some w,
          some (i / cfg.nxpe)⟩ : PerpState))
      = Except.ok ⟨(extractPerp cfg i (files i) s.buf).1, some w, some (i / cfg.nxpe)⟩
  rw [if_neg (not_not_intro hv), if_neg (not_not_intro hρ)]

theorem perpStep_eval_conflict_val (cfg : PerpCfg) (files : Nat → PerpFile) (s : PerpState)
    (i : Nat) (w v : Int) (hc : perpContrib cfg i (files i) = some w)
    (h1 : s.yig = some v) (hv : v ≠ w) :
    perpStep cfg files s i = .error .inconsistentYIndex := by
  simp only [perpStep]
  rw [extractPerp_snd, hc, h1]
  rcases hy2 : s.yproc with _ | ρ
  · show (if v ≠ w then Except.error PyError.inconsistentYIndex
          else Except.ok (⟨(extractPerp cfg i (files i) s.buf).1, some w,
            some (i / cfg.nxpe)⟩ : PerpState))
        = Except.error PyError.inconsistentYIndex
    rw [if_pos hv]
  · show (if v ≠ w then Except.error PyError.inconsistentYIndex
          else if ρ ≠ i / cfg.nxpe then Except.error PyError.inconsistentYProc
          else Except.ok (⟨(extractPerp cfg i (files i) s.buf).1, some w,
            some (i / cfg.nxpe)⟩ : PerpState))
        = Except.error PyError.inconsistentYIndex
    rw [if_pos hv]

theorem perpStep_eval_conflict_row (cfg : PerpCfg) (files : Nat → PerpFile) (s : PerpState)
    (i : Nat) (w v : Int) (ρ : Nat) (hc : perpContrib cfg i (files i) = some w)
    (h1 : s.yig = some v) (h2 : s.yproc = some ρ) (hv : v = w) (hρ : ρ ≠ i / cfg.nxpe) :
    perpStep cfg files s i = .error .inconsistentYProc := by
  simp only [perpStep]
  rw [extractPerp_snd, hc, h1, h2]
  show (if v ≠ w then Except.error PyError.inconsistentYIndex
        else if ρ ≠ i / cfg.nxpe then Except.error PyError.inconsistentYProc
        else Except.ok (⟨(extractPerp cfg i (files i) s.buf).1, some w,
          some (i / cfg.nxpe)⟩ : PerpState))
      = Except.error PyError.inconsistentYProc
  rw [if_neg (not_not_intro hv), if_pos hρ]

theorem perpStep_eval_conflict_row2 (cfg : PerpCfg) (files : Nat → PerpFile) (s : PerpState)
    (i : Nat) (w : Int) (ρ : Nat) (hc : perpContrib cfg i (files i) = some w)
    (h1 : s.yig = none) (h2 : s.yproc = some ρ) (hρ : ρ ≠ i / cfg.nxpe) :
    perpStep cfg files s i = .error .inconsistentYProc := by
  simp only [perpStep]
  rw [extractPerp_snd, hc, h1, h2]
  show (if ρ ≠ i / cfg.nxpe then Except.error PyError.inconsistentYProc
        else Except.ok (⟨(extractPerp cfg i (files i) s.buf).1, some w,
          some (i / cfg.nxpe)⟩ : PerpState))
      = Except.error PyError.inconsistentYProc
  rw [if_pos hρ]

/-- From a state that has already discovered `(v, ρ)`, a successful step
leaves the discovered values unchanged. -/
theorem perpStep_ok_inv (cfg : PerpCfg) (files : Nat → PerpFile) (s : PerpState)
    (i : Nat) (v : Int) (ρ : Nat) (s' : PerpState)
    (h1 : s.yig = some v) (h2 : s.yproc = some ρ)
    (hok : perpStep cfg files s i = .ok s') :
    s'.yig = some v ∧ s'.yproc = some ρ := by
  cases hc : perpContrib cfg i (files i) with
  | none =>
    rw [perpStep_eval_none cfg files s i hc] at hok
    cases hok
    exact ⟨h1, h2⟩
  | some w =>
    by_cases hv : v = w
    · by_cases hρ : ρ = i / cfg.nxpe
      · rw [perpStep_eval_some_ss cfg files s i w v ρ hc h1 h2 hv hρ] at hok
        cases hok
        exact ⟨by rw [hv], by rw [hρ]⟩
      · rw [perpStep_eval_conflict_row cfg files s i w v ρ hc h1 h2 hv hρ] at hok
        exact absurd hok (by simp)
    · rw [perpStep_eval_conflict_val cfg files s i w v hc h1 hv] at hok
      exact absurd hok (by simp)

/-- A successful step over a contributing file records that file's
`yindex_global` and its process row. -/
theorem perpStep_ok_set (cfg : PerpCfg) (files : Nat → PerpFile) (s : PerpState)
    (i : Nat) (w : Int) (s' : PerpState)
    (hc : perpContrib cfg i (files i) = some w)
    (hok : perpStep cfg files s i = .ok s') :
    s'.yig = some w ∧ s'.yproc = some (i / cfg.nxpe) := by
  rcases hy1 : s.yig with _ | v
  · rcases hy2 : s.yproc with _ | ρ
    · rw [perpStep_eval_some_nn cfg files s i w hc hy1 hy2] at hok
      cases hok
      exact ⟨rfl, rfl⟩
    · by_cases hρ : ρ = i / cfg.nxpe
      · rw [perpStep_eval_some_ns cfg files s i w ρ hc hy1 hy2 hρ] at hok
        cases hok
        exact ⟨rfl, rfl⟩
      · rw [perpStep_eval_conflict_row2 cfg files s i w ρ hc hy1 hy2 hρ] at hok
        exact absurd hok (by simp)
  · by_cases hv : v = w
    · rcases hy2 : s.yproc with _ | ρ
      · rw [perpStep_eval_some_sn cfg files s i w v hc hy1 hy2 hv] at hok
        cases hok
        exact ⟨rfl, rfl⟩
      · by_cases hρ : ρ = i / cfg.nxpe
        · rw [perpStep_eval_some_ss cfg files s i w v ρ hc hy1 hy2 hv hρ] at hok
          cases hok
          exact ⟨rfl, rfl⟩
        · rw [perpStep_eval_conflict_row cfg files s i w v ρ hc hy1 hy2 hv hρ] at hok
          exact absurd hok (by simp)
    · rw [perpStep_eval_conflict_val cfg files s i w v hc hy1 hv] at hok
      exact absurd hok (by simp)

theorem perpLoop_append (cfg : PerpCfg) (files : Nat → PerpFile) (l1 l2 : List Nat)
    (s : PerpState) :
    perpLoop cfg files (l1 ++ l2) s =
      match perpLoop cfg files l1 s with
      | .error e => .error e
      | .ok s' => perpLoop cfg files l2 s' := by
  induction l1 generalizing s with
  | nil => rfl
  | cons k rest ih =>
    simp only [List.cons_append, perpLoop]
    cases perpStep cfg files s k with
    | error e => rfl
    | ok s' => exact ih s'

theorem perpLoop_append_ok (cfg : PerpCfg) (files : Nat → PerpFile) (l1 l2 : List Nat)
    (s s1 : PerpState) (h : perpLoop cfg files l1 s = .ok s1) :
    perpLoop cfg files (l1 ++ l2) s = perpLoop cfg files l2 s1 := by
  rw [perpLoop_append, h]

theorem perpLoop_append_error (cfg : PerpCfg) (files : Nat → PerpFile) (l1 l2 : List Nat)
    (s : PerpState) (e : PyError) (h : perpLoop cfg files l1 s = .error e) :
    perpLoop cfg files (l1 ++ l2) s = .error e := by
  rw [perpLoop_append, h]

/-- If every contributing file in the remaining list agrees with `(v, ρ)`,
the loop completes, and the discovered values stay within `{none, v}` /
`{none, ρ}`. -/
theorem perpLoop_consistent (cfg : PerpCfg) (files : Nat → PerpFile) (v : Int) (ρ : Nat)
    (l : List Nat) :
    ∀ s : PerpState,
    (∀ j ∈ l, ∀ w, perpContrib cfg j (files j) = some w → w = v ∧ j / cfg.nxpe = ρ) →
    (s.yig = none ∨ s.yig = some v) → (s.yproc = none ∨ s.yproc = some ρ) →
    ∃ s', perpLoop cfg files l s = .ok s'
      ∧ (s'.yig = none ∨ s'.yig = some v) ∧ (s'.yproc = none ∨ s'.yproc = some ρ) := by
  induction l with
  | nil =>
    intro s _ h1 h2
    exact ⟨s, rfl, h1, h2⟩
  | cons k rest ih =>
    intro s hall h1 h2
    cases hc : perpContrib cfg k (files k) with
    | none =>
      obtain ⟨s', hs', hi1, hi2⟩ :=
        ih s (fun j hj w hw => hall j (List.mem_cons_of_mem _ hj) w hw) h1 h2
      refine ⟨s', ?_, hi1, hi2⟩
      simp only [perpLoop]
      rw [perpStep_eval_none cfg files s k hc]
      exact hs'
    | some w =>
      obtain ⟨hwv, hwρ⟩ := hall k (List.mem_cons_self k rest) w hc
      have hstep : perpStep cfg files s k =
          .ok ⟨(extractPerp cfg k (files k) s.buf).1, some w, some (k / cfg.nxpe)⟩ := by
        rcases h1 with h1 | h1
        · rcases h2 with h2 | h2
          · exact perpStep_eval_some_nn cfg files s k w hc h1 h2
          · exact perpStep_eval_some_ns cfg files s k w ρ hc h1 h2 hwρ.symm
        · rcases h2 with h2 | h2
          · exact perpStep_eval_some_sn cfg files s k w v hc h1 h2 hwv.symm
          · exact perpStep_eval_some_ss cfg files s k w v ρ hc h1 h2 hwv.symm hwρ.symm
      obtain ⟨s', hs', hi1, hi2⟩ :=
        ih ⟨(extractPerp cfg k (files k) s.buf).1, some w, some (k / cfg.nxpe)⟩
          (fun j hj w' hw' => hall j (List.mem_cons_of_mem _ hj) w' hw')
          (Or.inr (by rw [hwv])) (Or.inr (by rw [hwρ]))
      refine ⟨s', ?_, hi1, hi2⟩
      simp only [perpLoop]
      rw [hstep]
      exact hs'

/-- From a state that has discovered `(v, ρ)`, a remaining list containing
a contributor that disagrees in value or row makes the loop fail. -/
theorem perpLoop_conflict (cfg : PerpCfg) (files : Nat → PerpFile) (v : Int) (ρ : Nat)
    (l : List Nat) :
    ∀ s : PerpState, s.yig = some v → s.yproc = some ρ →
    (∃ j ∈ l, ∃ w, perpContrib cfg j (files j) = some w ∧ (w ≠ v ∨ j / cfg.nxpe ≠ ρ)) →
    ∃ e, perpLoop cfg files l s = .error e := by
  induction l with
  | nil =>
    intro s _ _ hex
    rcases hex with ⟨j, hj, _⟩
    simp at hj
  | cons k rest ih =>
    intro s h1 h2 hex
    rcases hex with ⟨j, hjmem, w, hw, hconf⟩
    rcases List.mem_cons.mp hjmem with heq | hjrest
    · subst heq
      rcases hconf with hcv | hcr
      · refine ⟨.inconsistentYIndex, ?_⟩
        simp only [perpLoop]
        rw [perpStep_eval_conflict_val cfg files s j w v hw h1 (Ne.symm hcv)]
      · by_cases hv : v = w
        · refine ⟨.inconsistentYProc, ?_⟩
          simp only [perpLoop]
          rw [perpStep_eval_conflict_row cfg files s j w v ρ hw h1 h2 hv (Ne.symm hcr)]
        · refine ⟨.inconsistentYIndex, ?_⟩
          simp only [perpLoop]
          rw [perpStep_eval_conflict_val cfg files s j w v hw h1 hv]
    · cases hstep : perpStep cfg files s k with
      | error e =>
        refine ⟨e, ?_⟩
        simp only [perpLoop]
        rw [hstep]
      | ok s' =>
        obtain ⟨hy, hp⟩ := perpStep_ok_inv cfg files s k v ρ s' h1 h2 hstep
        obtain ⟨e, he⟩ := ih s' hy hp ⟨j, hjrest, w, hw, hconf⟩
        refine ⟨e, ?_⟩
        simp only [perpLoop]
        rw [hstep]
        exact he

/-- C7: for a FieldPerp variable,
(i) a file whose `yindex_global` attribute is negative contributes nothing
    — the extractor returns with the buffer untouched and no discovered
    y-index;
(ii) if every file reporting a non-negative `yindex_global` lies in one
    process row `r` and reports the same value `v`, the collection loop
    succeeds, and the owning row it records (if any) is `r`;
(iii) if two files both contribute (in range and non-negative
    `yindex_global`) with different values or from different process rows,
    the whole collection fails with a hard error. -/
theorem c7_fieldperp :
    (∀ (cfg : PerpCfg) (i : Nat) (file : PerpFile) (result : Nat → Nat → Int),
      file.yindex_global < 0 → extractPerp cfg i file result = (result, none))
    ∧ (∀ (cfg : PerpCfg) (files : Nat → PerpFile) (r : Nat) (v : Int),
        (∀ i, i < cfg.nxpe * cfg.nype → 0 ≤ (files i).yindex_global →
          i / cfg.nxpe = r ∧ (files i).yindex_global = v) →
        ∃ s, collectPerpLoop cfg files = .ok s ∧ (s.yproc = none ∨ s.yproc = some r))
    ∧ (∀ (cfg : PerpCfg) (files : Nat → PerpFile) (i j : Nat) (vi vj : Int),
        i < j → j < cfg.nxpe * cfg.nype →
        perpContrib cfg i (files i) = some vi →
        perpContrib cfg j (files j) = some vj →
        (vi ≠ vj ∨ i / cfg.nxpe ≠ j / cfg.nxpe) →
        ∃ e, collectPerpLoop cfg files = .error e) := by
  refine ⟨?_, ?_, ?_⟩
  · intro cfg i file result h
    simp only [extractPerp]
    split_ifs <;> rfl
  · intro cfg files r v hall0
    obtain ⟨s, hs, _, hi2⟩ :=
      perpLoop_consistent cfg files v r (List.range (cfg.nxpe * cfg.nype))
        ⟨fun _ _ => 0, none, none⟩
        (fun j hj w hw => by
          obtain ⟨hty, hge⟩ := perpContrib_some cfg j (files j) w hw
          obtain ⟨hrow, hval⟩ := hall0 j (List.mem_range.mp hj) hge
          exact ⟨hty.trans hval, hrow⟩)
        (Or.inl rfl) (Or.inl rfl)
    exact ⟨s, hs, hi2⟩
  · intro cfg files i j vi vj hij hj hci hcj hconf
    have hrange : cfg.nxpe * cfg.nype = (i + 1) + (cfg.nxpe * cfg.nype - (i + 1)) := by
      omega
    show ∃ e, perpLoop cfg files (List.range (cfg.nxpe * cfg.nype))
      ⟨fun _ _ => 0, none, none⟩ = .error e
    rw [hrange, List.range_add]
    cases hpre : perpLoop cfg files (List.range (i + 1)) ⟨fun _ _ => 0, none, none⟩ with
    | error e =>
      exact ⟨e, perpLoop_append_error cfg files _ _ _ e hpre⟩
    | ok s1 =>
      have hs1 : s1.yig = some vi ∧ s1.yproc = some (i / cfg.nxpe) := by
        rw [List.range_succ] at hpre
        cases hpre0 : perpLoop cfg files (List.range i) ⟨fun _ _ => 0, none, none⟩ with
        | error e =>
          rw [perpLoop_append_error cfg files _ _ _ e hpre0] at hpre
          exact absurd hpre (by simp)
        | ok s0 =>
          rw [perpLoop_append_ok cfg files _ _ _ s0 hpre0] at hpre
          cases hstep : perpStep cfg files s0 i with
          | error e =>
            have hone : perpLoop cfg files [i] s0 = .error e := by
              simp only [perpLoop]
              rw [hstep]
            rw [hone] at hpre
            exact absurd hpre (by simp)
          | ok s' =>
            have hone : perpLoop cfg files [i] s0 = .ok s' := by
              simp only [perpLoop]
              rw [hstep]
            rw [hone] at hpre
            cases hpre
            exact perpStep_ok_set cfg files s0 i vi _ hci hstep
      have hjmem : j ∈ (List.range (cfg.nxpe * cfg.nype - (i + 1))).map ((i + 1) + ·) := by
        refine List.mem_map.mpr ⟨j - (i + 1), List.mem_range.mpr (by omega), by omega⟩
      obtain ⟨e, he⟩ := perpLoop_conflict cfg files vi (i / cfg.nxpe) _ s1 hs1.1 hs1.2
        ⟨j, hjmem, vj, hcj, by
          rcases hconf with h | h
          · exact Or.inl (Ne.symm h)
          · exact Or.inr (Ne.symm h)⟩
      refine ⟨e, ?_⟩
      rw [perpLoop_append_ok cfg files _ _ _ s1 hpre]
      exact he

/-- Witness for C7 at a concrete 2-row, 1-column topology. -/
theorem c7_fieldperp_witness :
    extractPerp ⟨1, 2, 2, 2, 0, 0, false, false, none, 0, 2, 0, 4, 0⟩ 0
        ⟨-1, fun _ _ => 0⟩ (fun _ _ => 0) = ((fun _ _ => 0), none)
    ∧ (∃ s, collectPerpLoop ⟨1, 2, 2, 2, 0, 0, false, false, none, 0, 2, 0, 4, 0⟩
        (fun i => ⟨if i = 0 then 3 else -1, fun _ _ => 0⟩) = .ok s
        ∧ (s.yproc = none ∨ s.yproc = some 0))
    ∧ (∃ e, collectPerpLoop ⟨1, 2, 2, 2, 0, 0, false, false, none, 0, 2, 0, 4, 0⟩
        (fun i => ⟨if i = 0 then 3 else 5, fun _ _ => 0⟩) = .error e) :=
  ⟨c7_fieldperp.1 _ 0 _ _ (by norm_num),
   c7_fieldperp.2.1 _ (fun i => ⟨if i = 0 then 3 else -1, fun _ _ => 0⟩) 0 3 (by decide),
   c7_fieldperp.2.2 _ (fun i => ⟨if i = 0 then 3 else 5, fun _ _ => 0⟩) 0 1 3 5
     (by norm_num) (by norm_num) (by decide) (by decide) (Or.inl (by norm_num))⟩

end Boutdata
